import Mathlib

/-!
Verification development for the multi-tenant LINE bot relay server
(`server.js`).  The JavaScript source is shallowly embedded: pure
computations become Lean functions on `Nat` / `Int` / `String` /
`List`, the in-process mutable maps (`conversationHistory`,
`lastBotResponse`, `audioStorage`) become explicit state values, and
network calls (Groq completion, Whisper transcription, Google TTS,
LINE download) become oracle parameters of type `Except String _`.
JavaScript numbers that hold timestamps are embedded as `Int`
(`Date.now()` arithmetic never overflows a double in practice and is
exact integer arithmetic there); 32-bit hash arithmetic is `Nat`
taken `% 2^32` explicitly.
-/

namespace LinebotServer

/-! ## Bytes and 32-bit words (for `crypto.createHmac('SHA256', …)`) -/

/-- Truncation to a 32-bit word, the implicit modulus of every
addition in SHA-256. -/
def w32 (n : Nat) : Nat := n % 4294967296

/-- Right rotation of a 32-bit word by `n` bits. -/
def rotr (n x : Nat) : Nat := w32 ((x >>> n) ||| (x <<< (32 - n)))

/-- 32-bit bitwise complement. -/
def wnot (x : Nat) : Nat := x ^^^ 4294967295

/-! ## SHA-256 (the `SHA256` algorithm selected in `verifySignature`) -/

/-- The 64 SHA-256 round constants. -/
def K256 : List Nat :=
  [1116352408, 1899447441, 3049323471, 3921009573, 961987163, 1508970993,
   2453635748, 2870763221, 3624381080, 310598401, 607225278, 1426881987,
   1925078388, 2162078206, 2614888103, 3248222580, 3835390401, 4022224774,
   264347078, 604807628, 770255983, 1249150122, 1555081692, 1996064986,
   2554220882, 2821834349, 2952996808, 3210313671, 3336571891, 3584528711,
   113926993, 338241895, 666307205, 773529912, 1294757372, 1396182291,
   1695183700, 1986661051, 2177026350, 2456956037, 2730485921, 2820302411,
   3259730800, 3345764771, 3516065817, 3600352804, 4094571909, 275423344,
   430227734, 506948616, 659060556, 883997877, 958139571, 1322822218,
   1537002063, 1747873779, 1955562222, 2024104815, 2227730452, 2361852424,
   2428436474, 2756734187, 3204031479, 3329325298]

/-- The SHA-256 initial hash value. -/
def H256 : List Nat :=
  [1779033703, 3144134277, 1013904242, 2773480762,
   1359893119, 2600822924, 528734635, 1541459225]

def bigSigma0 (x : Nat) : Nat := (rotr 2 x) ^^^ (rotr 13 x) ^^^ (rotr 22 x)

def bigSigma1 (x : Nat) : Nat := (rotr 6 x) ^^^ (rotr 11 x) ^^^ (rotr 25 x)

def smallSigma0 (x : Nat) : Nat := (rotr 7 x) ^^^ (rotr 18 x) ^^^ (x >>> 3)

def smallSigma1 (x : Nat) : Nat := (rotr 17 x) ^^^ (rotr 19 x) ^^^ (x >>> 10)

def chF (x y z : Nat) : Nat := (x &&& y) ^^^ ((wnot x) &&& z)

def majF (x y z : Nat) : Nat := (x &&& y) ^^^ (x &&& z) ^^^ (y &&& z)

/-- Working variables of the SHA-256 compression function. -/
structure Sha256State where
  a : Nat
  b : Nat
  c : Nat
  d : Nat
  e : Nat
  f : Nat
  g : Nat
  h : Nat
deriving Repr, DecidableEq

def sha256Init : Sha256State :=
  ⟨1779033703, 3144134277, 1013904242, 2773480762,
   1359893119, 2600822924, 528734635, 1541459225⟩

/-- One round of the SHA-256 compression function. -/
def roundStep (s : Sha256State) (kw : Nat × Nat) : Sha256State :=
  let t1 := w32 (s.h + bigSigma1 s.e + chF s.e s.f s.g + kw.1 + kw.2)
  let t2 := w32 (bigSigma0 s.a + majF s.a s.b s.c)
  ⟨w32 (t1 + t2), s.a, s.b, s.c, w32 (s.d + t1), s.e, s.f, s.g⟩

/-- Big-endian packing of bytes into 32-bit words. -/
def bytesToWords : List Nat → List Nat
  | b0 :: b1 :: b2 :: b3 :: rest =>
      (b0 * 16777216 + b1 * 65536 + b2 * 256 + b3) :: bytesToWords rest
  | _ => []

/-- Big-endian unpacking of a 32-bit word into four bytes. -/
def wordToBytes (w : Nat) : List Nat :=
  [(w >>> 24) % 256, (w >>> 16) % 256, (w >>> 8) % 256, w % 256]

/-- Extend the 16 message-schedule words to 64 by appending `n` more. -/
def extendSchedule (w : List Nat) : Nat → List Nat
  | 0 => w
  | n + 1 =>
      let len := w.length
      let nw := w32 (smallSigma1 (w.getD (len - 2) 0) + w.getD (len - 7) 0 +
                     smallSigma0 (w.getD (len - 15) 0) + w.getD (len - 16) 0)
      extendSchedule (w ++ [nw]) n

/-- Compress one 64-byte block (given as 16 words) into the chaining state. -/
def compressBlock (hs : Sha256State) (block : List Nat) : Sha256State :=
  let ws := extendSchedule block 48
  let s := (K256.zip ws).foldl roundStep hs
  ⟨w32 (hs.a + s.a), w32 (hs.b + s.b), w32 (hs.c + s.c), w32 (hs.d + s.d),
   w32 (hs.e + s.e), w32 (hs.f + s.f), w32 (hs.g + s.g), w32 (hs.h + s.h)⟩

/-- Split a word list into 16-word blocks (fuel-driven structural
recursion; `fuel = l.length` always suffices since every step
consumes at least one element). -/
def chunkWordsAux : Nat → List Nat → List (List Nat)
  | 0, _ => []
  | _, [] => []
  | fuel + 1, x :: xs =>
      ((x :: xs).take 16) :: chunkWordsAux fuel ((x :: xs).drop 16)

/-- Split a word list into 16-word blocks. -/
def chunkWords (l : List Nat) : List (List Nat) := chunkWordsAux l.length l

/-- SHA-256 padding: append `0x80`, zeros, and the 64-bit big-endian
bit length, reaching a multiple of 64 bytes. -/
def sha256Pad (msg : List Nat) : List Nat :=
  let len := msg.length
  let zeros := (119 - len % 64) % 64
  let bitLen := 8 * len
  msg ++ [128] ++ List.replicate zeros 0 ++
    [(bitLen >>> 56) % 256, (bitLen >>> 48) % 256, (bitLen >>> 40) % 256,
     (bitLen >>> 32) % 256, (bitLen >>> 24) % 256, (bitLen >>> 16) % 256,
     (bitLen >>> 8) % 256, bitLen % 256]

/-- SHA-256 of a byte sequence, as 32 bytes. -/
def sha256 (msg : List Nat) : List Nat :=
  let blocks := chunkWords (bytesToWords (sha256Pad msg))
  let fin := blocks.foldl compressBlock sha256Init
  (wordToBytes fin.a) ++ (wordToBytes fin.b) ++ (wordToBytes fin.c) ++
  (wordToBytes fin.d) ++ (wordToBytes fin.e) ++ (wordToBytes fin.f) ++
  (wordToBytes fin.g) ++ (wordToBytes fin.h)

/-- HMAC-SHA256 (`crypto.createHmac('SHA256', key).update(msg)`),
block size 64 bytes. -/
def hmacSha256 (key msg : List Nat) : List Nat :=
  let k0 := if key.length > 64 then sha256 key else key
  let kpad := k0 ++ List.replicate (64 - k0.length) 0
  let ipadded := kpad.map (fun b => b ^^^ 54)
  let opadded := kpad.map (fun b => b ^^^ 92)
  sha256 (opadded ++ sha256 (ipadded ++ msg))

/-! ## Base64 (`.digest('base64')`) -/

/-- The standard base64 alphabet. -/
def b64Alphabet : List Char :=
  "ABCDEFGHIJKLMNOPQRSTUVWXYZabcdefghijklmnopqrstuvwxyz0123456789+/".data

def b64Char (i : Nat) : Char := b64Alphabet.getD i 'A'

/-- Standard base64 encoding with `=` padding, over bytes. -/
def base64Chars : List Nat → List Char
  | [] => []
  | [b0] =>
      [b64Char (b0 >>> 2), b64Char ((b0 &&& 3) <<< 4), '=', '=']
  | [b0, b1] =>
      [b64Char (b0 >>> 2), b64Char (((b0 &&& 3) <<< 4) ||| (b1 >>> 4)),
       b64Char ((b1 &&& 15) <<< 2), '=']
  | b0 :: b1 :: b2 :: rest =>
      [b64Char (b0 >>> 2), b64Char (((b0 &&& 3) <<< 4) ||| (b1 >>> 4)),
       b64Char (((b1 &&& 15) <<< 2) ||| (b2 >>> 6)), b64Char (b2 &&& 63)] ++
      base64Chars rest

def base64Encode (bytes : List Nat) : String := String.mk (base64Chars bytes)

/-! ## UTF-8 (`Buffer.from(string)` uses utf8) -/

def utf8Char (ch : Char) : List Nat :=
  let c := ch.toNat
  if c < 128 then [c]
  else if c < 2048 then [192 ||| (c >>> 6), 128 ||| (c &&& 63)]
  else if c < 65536 then
    [224 ||| (c >>> 12), 128 ||| ((c >>> 6) &&& 63), 128 ||| (c &&& 63)]
  else
    [240 ||| (c >>> 18), 128 ||| ((c >>> 12) &&& 63),
     128 ||| ((c >>> 6) &&& 63), 128 ||| (c &&& 63)]

/-- UTF-8 encoding of a string as a byte sequence. -/
def utf8Encode (s : String) : List Nat := (s.data.map utf8Char).flatten

/-! ## JSON values (`JSON.parse` / `JSON.stringify`)

The webhook route parses the raw request body with `JSON.parse` and
`verifySignature` re-serializes the parsed value with
`JSON.stringify`.  Both are JavaScript builtins, modelled here for
the JSON fragment the LINE payloads use: objects, arrays, strings,
`true`/`false`/`null` and whitespace.  Numeric literals are not
modelled (their float round-trip is irrelevant to the claims); the
parser rejects them. -/

inductive Json where
  | null
  | bool (b : Bool)
  | str (s : String)
  | arr (elems : List Json)
  | obj (fields : List (String × Json))
deriving Repr, Inhabited

def hexDigit (n : Nat) : Char := "0123456789abcdef".data.getD n '0'

/-- `JSON.stringify` escaping of one string character. -/
def escapeJsonChar (c : Char) : List Char :=
  if c = '"' then ['\\', '"']
  else if c = '\\' then ['\\', '\\']
  else if c = '\n' then ['\\', 'n']
  else if c = '\r' then ['\\', 'r']
  else if c = '\t' then ['\\', 't']
  else if c.toNat = 8 then ['\\', 'b']
  else if c.toNat = 12 then ['\\', 'f']
  else if c.toNat < 32 then
    ['\\', 'u', '0', '0', hexDigit (c.toNat >>> 4), hexDigit (c.toNat &&& 15)]
  else [c]

/-- `JSON.stringify` rendering of a string literal. -/
def quoteJson (s : String) : String :=
  String.mk (['"'] ++ (s.data.map escapeJsonChar).flatten ++ ['"'])

/-- `JSON.stringify`, fuel-driven so that it reduces in the kernel;
`fuel = sizeOf j` always suffices (every recursive call descends one
node). -/
def jsonStringifyF : Nat → Json → String
  | 0, _ => ""
  | fuel + 1, j =>
      match j with
      | .null => "null"
      | .bool true => "true"
      | .bool false => "false"
      | .str s => quoteJson s
      | .arr xs => "[" ++ String.intercalate "," (xs.map (jsonStringifyF fuel)) ++ "]"
      | .obj fs =>
          "\x7b" ++
            String.intercalate ","
              (fs.map (fun kv => quoteJson kv.1 ++ ":" ++ jsonStringifyF fuel kv.2)) ++
          "\x7d"

/-- `JSON.stringify` (compact form, no spacing — matching the
zero-argument call in `verifySignature`).  The fuel `4096` bounds
nesting depth; every JSON value of depth below it (in particular
every LINE webhook payload) is rendered completely. -/
def jsonStringify (j : Json) : String := jsonStringifyF 4096 j

/-- JSON whitespace skipping. -/
def skipWs : List Char → List Char
  | [] => []
  | c :: rest =>
      if c = ' ' ∨ c = '\t' ∨ c = '\n' ∨ c = '\r' then skipWs rest else c :: rest

/-- Parse the body of a JSON string literal after the opening quote;
returns the decoded characters and the input after the closing
quote. -/
def parseStringBody : Nat → List Char → Option (List Char × List Char)
  | 0, _ => none
  | _, [] => none
  | fuel + 1, c :: rest =>
      if c = '"' then some ([], rest)
      else if c = '\\' then
        match rest with
        | [] => none
        | e :: rest2 =>
            let esc : Option Char :=
              if e = '"' then some '"'
              else if e = '\\' then some '\\'
              else if e = '/' then some '/'
              else if e = 'n' then some '\n'
              else if e = 'r' then some '\r'
              else if e = 't' then some '\t'
              else if e = 'b' then some (Char.ofNat 8)
              else if e = 'f' then some (Char.ofNat 12)
              else none
            match esc with
            | some ch => (parseStringBody fuel rest2).map (fun p => (ch :: p.1, p.2))
            | none => none
      else (parseStringBody fuel rest).map (fun p => (c :: p.1, p.2))

/-- Pending context frames of the iterative JSON parser. -/
inductive PFrame where
  | arrF (done : List Json)
  | objF (done : List (String × Json)) (key : String)
deriving Repr

/-- Instruction of the iterative JSON parser: parse a value, or fold
a finished value into the enclosing frame. -/
inductive PTask where
  | value
  | reduce (v : Json)
deriving Repr

/-- One-pass, stack-based JSON parser (fuel-driven structural
recursion so that it reduces in the kernel). -/
def parseStep : Nat → PTask → List PFrame → List Char → Option (Json × List Char)
  | 0, _, _, _ => none
  | fuel + 1, .value, stack, input =>
      match skipWs input with
      | [] => none
      | c :: rest =>
          if c = '"' then
            match parseStringBody (rest.length + 1) rest with
            | some (cs, rest2) => parseStep fuel (.reduce (.str (String.mk cs))) stack rest2
            | none => none
          else if c = '[' then
            match skipWs rest with
            | ']' :: rest2 => parseStep fuel (.reduce (.arr [])) stack rest2
            | rest2 => parseStep fuel .value (.arrF [] :: stack) rest2
          else if c = '\x7b' then
            match skipWs rest with
            | '\x7d' :: rest2 => parseStep fuel (.reduce (.obj [])) stack rest2
            | '"' :: rest2 =>
                match parseStringBody (rest2.length + 1) rest2 with
                | some (key, rest3) =>
                    match skipWs rest3 with
                    | ':' :: rest4 =>
                        parseStep fuel .value (.objF [] (String.mk key) :: stack) rest4
                    | _ => none
                | none => none
            | _ => none
          else if c = 't' then
            match rest with
            | 'r' :: 'u' :: 'e' :: rest2 => parseStep fuel (.reduce (.bool true)) stack rest2
            | _ => none
          else if c = 'f' then
            match rest with
            | 'a' :: 'l' :: 's' :: 'e' :: rest2 => parseStep fuel (.reduce (.bool false)) stack rest2
            | _ => none
          else if c = 'n' then
            match rest with
            | 'u' :: 'l' :: 'l' :: rest2 => parseStep fuel (.reduce .null) stack rest2
            | _ => none
          else none
  | fuel + 1, .reduce v, stack, input =>
      match stack with
      | [] => some (v, input)
      | .arrF done :: stk =>
          match skipWs input with
          | ',' :: rest => parseStep fuel .value (.arrF (done ++ [v]) :: stk) rest
          | ']' :: rest => parseStep fuel (.reduce (.arr (done ++ [v]))) stk rest
          | _ => none
      | .objF done key :: stk =>
          match skipWs input with
          | ',' :: rest =>
              match skipWs rest with
              | '"' :: rest2 =>
                  match parseStringBody (rest2.length + 1) rest2 with
                  | some (k2, rest3) =>
                      match skipWs rest3 with
                      | ':' :: rest4 =>
                          parseStep fuel .value
                            (.objF (done ++ [(key, v)]) (String.mk k2) :: stk) rest4
                      | _ => none
                  | none => none
              | _ => none
          | '\x7d' :: rest => parseStep fuel (.reduce (.obj (done ++ [(key, v)]))) stk rest
          | _ => none

/-- `JSON.parse` over the modelled fragment: a parse succeeds only
when the remainder after the top-level value is whitespace. -/
def jsonParse (s : String) : Option Json :=
  match parseStep (3 * s.data.length + 16) .value [] s.data with
  | some (v, rest) => if skipWs rest = [] then some v else none
  | none => none

/-! ## Bot configuration (`getBotConfig` row shape) -/

structure BotConfig where
  studentName : String
  skillType : String
  channelAccessToken : String
  channelSecret : String
  systemPrompt : String
deriving Repr, DecidableEq

/-- JavaScript `toLowerCase()` (ASCII case mapping, character by
character; the scripts the payloads use are covered by the ASCII
mapping). -/
def toLowerStr (s : String) : String := String.mk (s.data.map Char.toLower)

/-! ## Signature verification (`verifySignature`, server.js lines 272-278)

The source computes the HMAC over `Buffer.from(JSON.stringify(body))`
where `body` is the already-parsed request body — i.e. over the
re-serialized parse, not over the raw request bytes.  The signature
header is `Option String` because `req.headers['x-line-signature']`
may be absent (`undefined === hash` is `false`). -/

def verifySignature (body : Json) (signature : Option String) (channelSecret : String) : Bool :=
  let hash := base64Encode (hmacSha256 (utf8Encode channelSecret)
    (utf8Encode (jsonStringify body)))
  match signature with
  | some sig => hash == sig
  | none => false

/-- The base64 HMAC-SHA256 digest of the untouched raw request bytes:
what the LINE platform actually signs, and what the spec demands the
verifier compare against. -/
def rawBodySignature (secret rawBody : String) : String :=
  base64Encode (hmacSha256 (utf8Encode secret) (utf8Encode rawBody))

/-- HTTP outcome of the admission phase of `POST /webhook/:botId`. -/
inductive WebhookStatus where
  | notFound
  | badRequest
  | unauthorized
  | okSuccess
deriving Repr, DecidableEq

/-- Admission pipeline of `POST /webhook/:botId` (server.js lines
405-431): resolve bot (404), `JSON.parse` the raw body (400), then
`verifySignature` on the parsed body (401); only then are events
processed. -/
def webhookAdmission (botConfig : Option BotConfig) (rawBody : String)
    (signature : Option String) : WebhookStatus :=
  match botConfig with
  | none => .notFound
  | some cfg =>
      match jsonParse rawBody with
      | none => .badRequest
      | some body =>
          if verifySignature body signature cfg.channelSecret then .okSuccess
          else .unauthorized

/-! ## Conversation session (`conversationHistory`, `getAIResponse`) -/

/-- One entry of a conversation history (`{role, content}`). -/
structure Turn where
  role : String
  content : String
deriving Repr, DecidableEq

/-- The first half of `getAIResponse` (lines 311-320): push the user
turn, then truncate to the last 20 entries (`slice(-20)`) when the
length exceeds 20. -/
def pushUserAndTruncate (history : List Turn) (userMessage : String) : List Turn :=
  let h := history ++ [⟨"user", userMessage⟩]
  if h.length > 20 then h.drop (h.length - 20) else h

/-- `getAIResponse` (lines 304-356) with the Groq completion call
replaced by the oracle `api`: on success the assistant turn is pushed
and returned, on failure the error is re-thrown and the history keeps
only the pushed user turn. -/
def getAIResponse (history : List Turn) (userMessage : String)
    (api : Except String String) : List Turn × Except String String :=
  let h := pushUserAndTruncate history userMessage
  match api with
  | .ok assistantMessage => (h ++ [⟨"assistant", assistantMessage⟩], .ok assistantMessage)
  | .error e => (h, .error e)

/-- `N` consecutive successful free-form turns against a fresh
session, with the `n`-th user text `userMsgs n` and assistant reply
`assistantMsgs n`. -/
def runTurns (userMsgs assistantMsgs : Nat → String) : Nat → List Turn
  | 0 => []
  | n + 1 =>
      (getAIResponse (runTurns userMsgs assistantMsgs n) (userMsgs n)
        (.ok (assistantMsgs n))).1

/-- The untruncated transcript of the same `N` turns, oldest first. -/
def fullTranscript (userMsgs assistantMsgs : Nat → String) : Nat → List Turn
  | 0 => []
  | n + 1 =>
      fullTranscript userMsgs assistantMsgs n ++
        [⟨"user", userMsgs n⟩, ⟨"assistant", assistantMsgs n⟩]

/-! ## Ephemeral audio storage (`audioStorage`, `storeAudio`, `GET /audio/:audioId`) -/

structure AudioData where
  buffer : List Nat
  createdAt : Int
deriving Repr, DecidableEq

/-- `Map.set`: overwrite in place when the key exists (insertion
order preserved), append otherwise. -/
def mapSet (m : List (String × AudioData)) (k : String) (v : AudioData) :
    List (String × AudioData) :=
  if k ∈ m.map Prod.fst then
    m.map (fun kv => if kv.1 = k then (k, v) else kv)
  else m ++ [(k, v)]

/-- The generated blob identifier
`audio_${Date.now()}_${Math.random().toString(36).substr(2, 9)}`. -/
def makeAudioId (now : Int) (rand : String) : String :=
  "audio_" ++ toString now ++ "_" ++ rand

/-- `storeAudio` (lines 250-269): generate an id, `Map.set` the
buffer with its creation time, then sweep every entry whose
`createdAt` lies strictly before `now - 5 * 60 * 1000`.  The decoded
audio bytes (`Buffer.from(audioBase64, 'base64')`) are the
`audioBytes` parameter; both `Date.now()` reads of the call are the
single instant `now`. -/
def storeAudio (storage : List (String × AudioData)) (audioBytes : List Nat)
    (now : Int) (rand : String) : List (String × AudioData) × String :=
  let audioId := makeAudioId now rand
  let st := mapSet storage audioId ⟨audioBytes, now⟩
  let fiveMinutesAgo := now - 5 * 60 * 1000
  (st.filter (fun kv => ¬ kv.2.createdAt < fiveMinutesAgo), audioId)

/-- The route parameter normalization of `GET /audio/:audioId`
(line 365): drop one trailing `.mp3` (`replace(/\.mp3$/, '')`). -/
def stripMp3 (s : String) : String :=
  if ".mp3".data <:+ s.data then String.mk (s.data.take (s.data.length - 4))
  else s

/-- `GET /audio/:audioId` (lines 363-378): look the normalized id up
in the store; `none` is the 404 "Audio not found or expired" branch,
`some bytes` the 200 response.  Note the lookup consults only the
store — no clock is read and no expiry is checked here. -/
def fetchAudio (storage : List (String × AudioData)) (param : String) :
    Option (List Nat) :=
  match storage.lookup (stripMp3 param) with
  | some d => some d.buffer
  | none => none

/-! ## Outbound messages and reply chunking -/

/-- A LINE message as assembled by the webhook handler. -/
inductive LineMessage where
  | text (s : String)
  | audio (originalContentUrl : String) (duration : Nat)
deriving Repr, DecidableEq

/-- The splitting loop of lines 540-547
(`for (i = 0; i < len; i += 4500) substring(i, i + 4500)`), as
take/drop chunks (fuel-driven structural recursion; `fuel = l.length`
suffices since every step consumes at least one character). -/
def chunkCharsAux : Nat → List Char → List (List Char)
  | 0, _ => []
  | _, [] => []
  | fuel + 1, c :: cs => ((c :: cs).take 4500) :: chunkCharsAux fuel ((c :: cs).drop 4500)

def chunkChars (l : List Char) : List (List Char) := chunkCharsAux l.length l

/-- The keyword list of lines 529-533. -/
def audioKeywords : List String :=
  ["語音", "聽", "發音", "念", "唸", "讀給我聽", "說給我聽",
   "audio", "listen", "voice", "speak", "pronunciation",
   "hear", "sound", "say it", "read it", "listening practice"]

/-- `audioKeywords.some(kw => userMessage.toLowerCase().includes(kw.toLowerCase()))`. -/
def wantsAudioCheck (userMessage : String) : Bool :=
  audioKeywords.any (fun kw =>
    decide ((toLowerStr kw).data <:+: (toLowerStr userMessage).data))

/-- `host.replace(/\/$/, '')` on the external URL. -/
def stripTrailingSlash (s : String) : String :=
  if s.data.getLast? = some '/' then String.mk s.data.dropLast else s

/-- `Math.min(text.length * 80, 60000)`, the estimated duration. -/
def audioDuration (text : String) : Nat := min (text.length * 80) 60000

def resetReply : String :=
  "Conversation reset! Let\x27s start fresh. How can I help you practice today?"

def helpReply (cfg : BotConfig) : String :=
  "Welcome to " ++ cfg.studentName ++ "\x27s " ++ cfg.skillType ++
  " Strategy Bot!\n\n📝 Text: Type your message to practice\n🎤 Voice: Send a voice message for speaking practice!\n🔊 /listen: Hear the last response as audio\n\nCommands:\n/reset - Clear conversation history\n/listen - Listen to the last response\n/help - Show this message\n\nJust type or speak naturally to practice " ++
  toLowerStr cfg.skillType ++ " strategies!"

def noLastResponseReply : String :=
  "No previous response to listen to. Send me a message first!"

def ttsFailReply : String :=
  "Sorry, I couldn\x27t generate the audio. Please try again."

def aiTroubleReply : String :=
  "Sorry, I\x27m having trouble right now. Please try again in a moment."

def voiceTroublePush : String :=
  "Sorry, I had trouble processing your voice message. Please try again or type your message instead."

/-! ## The text-message event handler (lines 437-607)

All state the event touches is passed in and returned explicitly:
the caller's conversation history, the caller's `lastBotResponse`
entry, and the shared `audioStorage`.  Upstream calls are oracles:
`ai` the Groq completion, `tts` the Google TTS synthesis (already
base64-decoded to bytes); `hasTtsKey` is `GOOGLE_TTS_API_KEY` being
set; `now`/`rand` feed `storeAudio`; `host` is the external URL. -/

structure TextTurnResult where
  history : List Turn
  lastResponse : Option String
  replies : List LineMessage
  pushes : List LineMessage
  audioStorage : List (String × AudioData)
  aiCalled : Bool
  logged : Option (String × String × String)
deriving Repr

def handleTextMessage (cfg : BotConfig) (userMessage : String)
    (history : List Turn) (lastResponse : Option String)
    (storage : List (String × AudioData))
    (ai : Except String String) (tts : Except String (List Nat))
    (hasTtsKey : Bool) (now : Int) (rand : String) (host : String) :
    TextTurnResult :=
  if toLowerStr userMessage = "/reset" then
    { history := [], lastResponse := lastResponse,
      replies := [.text resetReply], pushes := [],
      audioStorage := storage, aiCalled := false, logged := none }
  else if toLowerStr userMessage = "/help" then
    { history := history, lastResponse := lastResponse,
      replies := [.text (helpReply cfg)], pushes := [],
      audioStorage := storage, aiCalled := false, logged := none }
  else if toLowerStr userMessage = "/listen" then
    match lastResponse with
    | none =>
        { history := history, lastResponse := lastResponse,
          replies := [.text noLastResponseReply], pushes := [],
          audioStorage := storage, aiCalled := false, logged := none }
    | some lr =>
        match tts with
        | .ok audioBytes =>
            let stored := storeAudio storage audioBytes now rand
            let audioUrl := stripTrailingSlash host ++ "/audio/" ++ stored.2 ++ ".mp3"
            { history := history, lastResponse := lastResponse,
              replies := [.audio audioUrl (audioDuration lr)], pushes := [],
              audioStorage := stored.1, aiCalled := false, logged := none }
        | .error _ =>
            { history := history, lastResponse := lastResponse,
              replies := [.text ttsFailReply], pushes := [],
              audioStorage := storage, aiCalled := false, logged := none }
  else
    match getAIResponse history userMessage ai with
    | (h2, .ok aiResponse) =>
        let wantsAudio := wantsAudioCheck userMessage
        let replies :=
          if aiResponse.length > 4500 then
            (chunkChars aiResponse.data).map (fun c => LineMessage.text (String.mk c))
          else [LineMessage.text aiResponse]
        let pushedAudio :=
          if wantsAudio ∧ hasTtsKey then
            match tts with
            | .ok audioBytes =>
                let stored := storeAudio storage audioBytes now rand
                let audioUrl := stripTrailingSlash host ++ "/audio/" ++ stored.2 ++ ".mp3"
                ([LineMessage.audio audioUrl (audioDuration aiResponse)], stored.1)
            | .error _ => ([], storage)
          else ([], storage)
        { history := h2, lastResponse := some aiResponse,
          replies := replies, pushes := pushedAudio.1,
          audioStorage := pushedAudio.2, aiCalled := true,
          logged := some (userMessage, aiResponse, "text") }
    | (h2, .error _) =>
        { history := h2, lastResponse := lastResponse,
          replies := [.text aiTroubleReply], pushes := [],
          audioStorage := storage, aiCalled := true, logged := none }

/-! ## The audio-message event handler (lines 611-678) -/

structure AudioTurnResult where
  history : List Turn
  lastResponse : Option String
  replies : List LineMessage
  pushes : List LineMessage
  aiCalled : Bool
  logged : Option (String × String × String)
deriving Repr

/-- `handleAudioMessage`: download (oracle `download`), transcribe
(oracle `transcribe`), feed the transcript through `getAIResponse`
(oracle `ai`), reply with the echo-plus-feedback text; any failure
falls back to a fixed push message.  Note `lastBotResponse` is never
written on this path. -/
def handleAudioMessage (history : List Turn) (lastResponse : Option String)
    (download : Except String (List Nat)) (transcribe : Except String String)
    (ai : Except String String) : AudioTurnResult :=
  match download with
  | .error _ =>
      { history := history, lastResponse := lastResponse, replies := [],
        pushes := [.text voiceTroublePush], aiCalled := false, logged := none }
  | .ok _ =>
      match transcribe with
      | .error _ =>
          { history := history, lastResponse := lastResponse, replies := [],
            pushes := [.text voiceTroublePush], aiCalled := false, logged := none }
      | .ok transcribedText =>
          match getAIResponse history transcribedText ai with
          | (h2, .ok feedback) =>
              { history := h2, lastResponse := lastResponse,
                replies := [.text ("📝 I heard you say:\n\"" ++ transcribedText ++
                  "\"\n\n" ++ feedback)],
                pushes := [], aiCalled := true,
                logged := some ("[Voice Message] " ++ transcribedText, feedback, "audio") }
          | (h2, .error _) =>
              { history := h2, lastResponse := lastResponse, replies := [],
                pushes := [.text voiceTroublePush], aiCalled := true, logged := none }

/-- The reply format the spec states for a successful voice turn,
written from the spec text:
`"I heard you say: \"<transcript>\"" + newline + newline + <feedback>`. -/
def specVoiceReplyFormat (transcript feedback : String) : String :=
  "I heard you say: \"" ++ transcript ++ "\"\n\n" ++ feedback

/-! ## Registration (`POST /api/register`, lines 725-772) -/

/-- One character of the identifier derivation: lowercase (ASCII
case mapping), then replace anything outside `[a-z0-9]` with `_`. -/
def botIdChar (c : Char) : Char :=
  let lc := c.toLower
  if ('a' ≤ lc ∧ lc ≤ 'z') ∨ ('0' ≤ lc ∧ lc ≤ '9') then lc else '_'

/-- `studentName.toLowerCase().replace(/[^a-z0-9]/g, '_')`: lowercase
the display name, then each character outside `[a-z0-9]` becomes
`_`, character by character. -/
def deriveBotId (studentName : String) : String :=
  String.mk (studentName.data.map botIdChar)

inductive RegResult where
  | missingFields
  | duplicate (existingBotId : String)
  | registered (botId : String) (webhookUrl : String)
deriving Repr, DecidableEq

/-- `POST /api/register`: reject when any field is missing (JS
falsiness of the empty string), derive the bot id from the display
name, reject 409 when a bot with that id already exists, otherwise
insert. -/
def registerBot (bots : List (String × BotConfig))
    (studentName skillType channelAccessToken channelSecret systemPrompt : String)
    (host : String) : RegResult × List (String × BotConfig) :=
  if studentName = "" ∨ skillType = "" ∨ channelAccessToken = "" ∨
     channelSecret = "" ∨ systemPrompt = "" then
    (.missingFields, bots)
  else
    let botId := deriveBotId studentName
    if botId ∈ bots.map Prod.fst then
      (.duplicate botId, bots)
    else
      (.registered botId ("https://" ++ host ++ "/webhook/" ++ botId),
       bots ++ [(botId, ⟨studentName, skillType, channelAccessToken,
                 channelSecret, systemPrompt⟩)])

/-! ## Fixed inputs used by concrete theorems -/

/-- A raw webhook body whose bytes differ from the compact
re-serialization of its parse (one space after the colon). -/
def rawBody0 : String := "\x7b\"events\": []\x7d"

/-- A registered bot with the spec's example signing secret. -/
def cfg0 : BotConfig :=
  ⟨"Test Student", "Reading", "token0", "secret123", "prompt0"⟩

end LinebotServer

namespace LinebotServer

/-! # Helper lemmas -/

theorem suffix_append_same {α : Type} {s t : List α} (r : List α) (h : s <:+ t) :
    s ++ r <:+ t ++ r := by
  obtain ⟨w, hw⟩ := h
  exact ⟨w, by rw [← List.append_assoc, hw]⟩

theorem pushUserAndTruncate_length (history : List Turn) (u : String) :
    (pushUserAndTruncate history u).length =
      if history.length + 1 > 20 then 20 else history.length + 1 := by
  simp only [pushUserAndTruncate, List.length_append, List.length_cons,
    List.length_nil]
  split
  · simp only [List.length_drop, List.length_append, List.length_cons,
      List.length_nil]
    omega
  · simp only [List.length_append, List.length_cons, List.length_nil]

theorem pushUserAndTruncate_suffix (history : List Turn) (u : String) :
    pushUserAndTruncate history u <:+ history ++ [⟨"user", u⟩] := by
  simp only [pushUserAndTruncate]
  split
  · exact List.drop_suffix _ _
  · exact List.suffix_rfl

theorem pushUserAndTruncate_mem (history : List Turn) (u : String) (t : Turn)
    (ht : t ∈ pushUserAndTruncate history u) : t ∈ history ∨ t = ⟨"user", u⟩ := by
  have h1 : t ∈ history ++ [(⟨"user", u⟩ : Turn)] :=
    (pushUserAndTruncate_suffix history u).subset ht
  rcases List.mem_append.mp h1 with h | h
  · exact Or.inl h
  · exact Or.inr (by simpa using h)

theorem mem_mapSet (m : List (String × AudioData)) (k : String) (v : AudioData)
    (q : String × AudioData) (hq : q ∈ mapSet m k v) :
    q = (k, v) ∨ (q ∈ m ∧ q.1 ≠ k) := by
  unfold mapSet at hq
  by_cases hmem : k ∈ m.map Prod.fst
  · rw [if_pos hmem] at hq
    obtain ⟨kv, hkv, hfkv⟩ := List.mem_map.mp hq
    by_cases hk : kv.1 = k
    · left
      rw [← hfkv, if_pos hk]
    · right
      rw [← hfkv, if_neg hk]
      exact ⟨hkv, hk⟩
  · rw [if_neg hmem] at hq
    rcases List.mem_append.mp hq with h | h
    · right
      refine ⟨h, fun hk => hmem ?_⟩
      exact List.mem_map.mpr ⟨q, h, hk⟩
    · left
      simpa using h

theorem lookup_append_single (m : List (String × AudioData)) (k : String)
    (v : AudioData) (h : ∀ q ∈ m, q.1 ≠ k) :
    (m ++ [(k, v)]).lookup k = some v := by
  induction m with
  | nil => simp [List.lookup_cons]
  | cons a rest ih =>
      obtain ⟨ak, av⟩ := a
      have hak : (k == ak) = false :=
        beq_eq_false_iff_ne.mpr (fun he => (h (ak, av) (by simp)) he.symm)
      rw [List.cons_append]
      simp only [List.lookup_cons, hak]
      exact ih (fun q hq => h q (by simp [hq]))

theorem lookup_map_replace (m : List (String × AudioData)) (k : String)
    (v : AudioData) (hmem : k ∈ m.map Prod.fst) :
    (m.map (fun kv => if kv.1 = k then (k, v) else kv)).lookup k = some v := by
  induction m with
  | nil => simp at hmem
  | cons a rest ih =>
      rw [List.map_cons]
      by_cases hk : a.1 = k
      · rw [if_pos hk]
        simp [List.lookup_cons]
      · rw [if_neg hk]
        have hmem2 : k ∈ rest.map Prod.fst := by
          simp only [List.map_cons, List.mem_cons] at hmem
          rcases hmem with h | h
          · exact absurd h.symm hk
          · exact h
        obtain ⟨ak, av⟩ := a
        have hk2 : (k == ak) = false :=
          beq_eq_false_iff_ne.mpr (fun he => hk he.symm)
        simp only [List.lookup_cons, hk2]
        exact ih hmem2

theorem lookup_mapSet (m : List (String × AudioData)) (k : String) (v : AudioData) :
    (mapSet m k v).lookup k = some v := by
  unfold mapSet
  by_cases hmem : k ∈ m.map Prod.fst
  · rw [if_pos hmem]
    exact lookup_map_replace m k v hmem
  · rw [if_neg hmem]
    refine lookup_append_single m k v (fun q hq hk => hmem ?_)
    exact List.mem_map.mpr ⟨q, hq, hk⟩

theorem lookup_filter_some (m : List (String × AudioData)) (k : String)
    (v : AudioData) (P : String × AudioData → Bool)
    (hl : m.lookup k = some v) (hall : ∀ q ∈ m, q.1 = k → q.2 = v)
    (hP : P (k, v) = true) : (m.filter P).lookup k = some v := by
  induction m with
  | nil => simp at hl
  | cons a rest ih =>
      obtain ⟨ak, av⟩ := a
      by_cases hk : ak = k
      · subst hk
        have hv : av = v := by
          have hl2 := hl
          simp only [List.lookup_cons, beq_self_eq_true] at hl2
          exact Option.some.inj hl2
        subst hv
        rw [List.filter_cons]
        simp only [hP, if_true, List.lookup_cons, beq_self_eq_true]
      · have hk2 : (k == ak) = false :=
          beq_eq_false_iff_ne.mpr (fun he => hk he.symm)
        have hl2 : rest.lookup k = some v := by
          simpa only [List.lookup_cons, hk2] using hl
        have hrec := ih hl2 (fun q hq hq1 => hall q (by simp [hq]) hq1)
        rw [List.filter_cons]
        cases hPa : P (ak, av) with
        | false =>
            simp only [hPa, Bool.false_eq_true, if_false]
            exact hrec
        | true =>
            simp only [hPa, if_true, List.lookup_cons, hk2]
            exact hrec

theorem lookup_filter_none (m : List (String × AudioData)) (k : String)
    (P : String × AudioData → Bool)
    (h : ∀ q ∈ m, q.1 = k → P q = false) : (m.filter P).lookup k = none := by
  induction m with
  | nil => rfl
  | cons a rest ih =>
      obtain ⟨ak, av⟩ := a
      have hrec := ih (fun q hq hq1 => h q (by simp [hq]) hq1)
      rw [List.filter_cons]
      by_cases hk : ak = k
      · rw [h (ak, av) (by simp) hk]
        simp only [Bool.false_eq_true, if_false]
        exact hrec
      · have hk2 : (k == ak) = false :=
          beq_eq_false_iff_ne.mpr (fun he => hk he.symm)
        cases hPa : P (ak, av) with
        | false =>
            simp only [hPa, Bool.false_eq_true, if_false]
            exact hrec
        | true =>
            simp only [hPa, if_true, List.lookup_cons, hk2]
            exact hrec

theorem not_mp3_suffix_of_no_dot (l : List Char) (h : '.' ∉ l) :
    ¬ (".mp3".data <:+ l) := by
  intro hsuf
  exact h (hsuf.subset (by decide))

theorem stripMp3_no_dot (s : String) (h : '.' ∉ s.data) : stripMp3 s = s := by
  unfold stripMp3
  rw [if_neg (not_mp3_suffix_of_no_dot s.data h)]

theorem chunkCharsAux_flatten (fuel : Nat) :
    ∀ l : List Char, l.length ≤ fuel → (chunkCharsAux fuel l).flatten = l := by
  induction fuel with
  | zero =>
      intro l hl
      have h0 : l = [] := List.eq_nil_of_length_eq_zero (Nat.le_zero.mp hl)
      subst h0
      rfl
  | succ n ih =>
      intro l hl
      cases l with
      | nil => rfl
      | cons c cs =>
          simp only [chunkCharsAux, List.flatten_cons]
          rw [ih ((c :: cs).drop 4500) (by
            rw [List.length_drop]
            simp only [List.length_cons] at hl ⊢
            omega)]
          exact List.take_append_drop 4500 (c :: cs)

theorem chunkCharsAux_mem_length (fuel : Nat) :
    ∀ l c, c ∈ chunkCharsAux fuel l → c.length ≤ 4500 := by
  induction fuel with
  | zero =>
      intro l c hc
      simp [chunkCharsAux] at hc
  | succ n ih =>
      intro l c hc
      cases l with
      | nil => simp [chunkCharsAux] at hc
      | cons x xs =>
          simp only [chunkCharsAux, List.mem_cons] at hc
          rcases hc with rfl | hc
          · rw [List.length_take]
            omega
          · exact ih _ _ hc

theorem chunkCharsAux_count (fuel : Nat) :
    ∀ l : List Char, l.length ≤ fuel →
      (chunkCharsAux fuel l).length = (l.length + 4499) / 4500 := by
  induction fuel with
  | zero =>
      intro l hl
      have h0 : l = [] := List.eq_nil_of_length_eq_zero (Nat.le_zero.mp hl)
      subst h0
      decide
  | succ n ih =>
      intro l hl
      cases l with
      | nil => simp [chunkCharsAux]
      | cons x xs =>
          simp only [chunkCharsAux, List.length_cons]
          rw [ih _ (by
            rw [List.length_drop]
            simp only [List.length_cons] at hl ⊢
            omega)]
          rw [List.length_drop]
          simp only [List.length_cons]
          by_cases hle : xs.length + 1 ≤ 4500
          · have h0 : xs.length + 1 - 4500 = 0 := by omega
            have h1 : (xs.length + 1 + 4499) / 4500 = 1 :=
              Nat.div_eq_of_lt_le (by omega) (by omega)
            rw [h0, h1]
          · have h2 : xs.length + 1 + 4499 = (xs.length + 1 - 4500 + 4499) + 4500 := by
              omega
            rw [h2, Nat.add_div_right _ (by norm_num)]

theorem chunkChars_flatten (l : List Char) : (chunkChars l).flatten = l :=
  chunkCharsAux_flatten l.length l (Nat.le_refl _)

theorem chunkChars_mem_length (l c : List Char) (hc : c ∈ chunkChars l) :
    c.length ≤ 4500 :=
  chunkCharsAux_mem_length _ _ _ hc

theorem chunkChars_count (l : List Char) :
    (chunkChars l).length = (l.length + 4499) / 4500 :=
  chunkCharsAux_count l.length l (Nat.le_refl _)

theorem stripMp3_append_mp3 (s : String) : stripMp3 (s ++ ".mp3") = s := by
  unfold stripMp3
  rw [if_pos]
  · rw [show (s ++ ".mp3").data = s.data ++ ".mp3".data from String.data_append s ".mp3"]
    rw [List.length_append, show (".mp3".data).length = 4 from rfl,
      Nat.add_sub_cancel, List.take_left]
  · rw [show (s ++ ".mp3").data = s.data ++ ".mp3".data from String.data_append s ".mp3"]
    exact List.suffix_append s.data ".mp3".data

end LinebotServer

namespace LinebotServer

/-! # Claim theorems -/

/-- C7: a message whose lowercased text is exactly `/reset` empties
the caller's session regardless of prior size, replies with the fixed
confirmation, never invokes the completion API (`aiCalled = false`)
and never logs the exchange (`logged = none`): the entire observable
outcome of the turn is the fixed record below. -/
theorem c7_reset_clears_session_no_ai_no_log
    (cfg : BotConfig) (msg : String) (hist : List Turn) (lastResp : Option String)
    (storage : List (String × AudioData)) (ai : Except String String)
    (tts : Except String (List Nat)) (hasTtsKey : Bool) (now : Int)
    (rand host : String)
    (h : toLowerStr msg = "/reset") :
    handleTextMessage cfg msg hist lastResp storage ai tts hasTtsKey now rand host =
      { history := [], lastResponse := lastResp, replies := [.text resetReply],
        pushes := [], audioStorage := storage, aiCalled := false, logged := none } := by
  simp only [handleTextMessage, h, if_pos]

/-- C7 witness: the theorem applied to a concrete `/reset` turn
against a 2-entry session. -/
theorem c7_reset_clears_session_no_ai_no_log_witness :
    (toLowerStr "/ReSeT" = "/reset") ∧
    handleTextMessage cfg0 "/ReSeT" [⟨"user", "hi"⟩, ⟨"assistant", "hello"⟩]
        (some "hello") [] (.error "e") (.error "e") false 0 "r" "h" =
      { history := [], lastResponse := some "hello", replies := [.text resetReply],
        pushes := [], audioStorage := [], aiCalled := false, logged := none } :=
  ⟨by decide,
   c7_reset_clears_session_no_ai_no_log cfg0 "/ReSeT"
     [⟨"user", "hi"⟩, ⟨"assistant", "hello"⟩] (some "hello") [] (.error "e")
     (.error "e") false 0 "r" "h" (by decide)⟩

/-- C9 counterexample: at transcript `"hello"` and feedback
`"good"`, the reply the audio handler actually sends is not the
spec's stated format
`"I heard you say: \"<transcript>\"" + newline + newline + <feedback>`
(the real reply prepends `📝 ` and puts the quoted transcript on its
own line). -/
theorem c9_voice_reply_format_differs_from_spec :
    (handleAudioMessage [] none (.ok [1]) (.ok "hello") (.ok "good")).replies ≠
      [.text (specVoiceReplyFormat "hello" "good")] := by
  decide

/-- C9 amended: a successful voice turn feeds the transcript through
`getAIResponse` exactly as typed text (the history gains the user
turn with the transcript, then the assistant turn), and the reply is
`"📝 I heard you say:" + newline + "\"" + transcript + "\"" + newline
+ newline + feedback`. -/
theorem c9_voice_reply_echo_format (hist : List Turn) (lastResp : Option String)
    (buf : List Nat) (t f : String) :
    handleAudioMessage hist lastResp (.ok buf) (.ok t) (.ok f) =
      { history := pushUserAndTruncate hist t ++ [⟨"assistant", f⟩],
        lastResponse := lastResp,
        replies := [.text ("📝 I heard you say:\n\"" ++ t ++ "\"\n\n" ++ f)],
        pushes := [], aiCalled := true,
        logged := some ("[Voice Message] " ++ t, f, "audio") } := by
  simp only [handleAudioMessage, getAIResponse]

/-- C4 counterexample: a successful voice turn with assistant
feedback `"new"` leaves the caller's `lastBotResponse` at its prior
value `"old"` instead of overwriting it with the most recent reply —
the audio message handler never writes `lastBotResponse`. -/
theorem c4_voice_turn_leaves_last_response_unchanged :
    (handleAudioMessage [] (some "old") (.ok [1]) (.ok "hi") (.ok "new")).lastResponse
        = some "old" ∧
    (handleAudioMessage [] (some "old") (.ok [1]) (.ok "hi") (.ok "new")).lastResponse
        ≠ some "new" := by
  exact ⟨by decide, by decide⟩

/-- C4 amended: the `LastResponse` entry is overwritten with the
assistant's reply after every successful typed-text free-form turn
(and holds only that single reply), but a voice-message turn never
updates it — on every voice turn, successful or not, it keeps its
prior value. -/
theorem c4_last_response_overwritten_on_text_turns_only
    (cfg : BotConfig) (msg : String) (hist : List Turn) (lastResp : Option String)
    (storage : List (String × AudioData)) (resp : String)
    (tts : Except String (List Nat)) (hasTtsKey : Bool) (now : Int)
    (rand host : String) (hist2 : List Turn) (lastResp2 : Option String)
    (download : Except String (List Nat)) (transcribe : Except String String)
    (ai2 : Except String String)
    (h1 : toLowerStr msg ≠ "/reset") (h2 : toLowerStr msg ≠ "/help")
    (h3 : toLowerStr msg ≠ "/listen") :
    (handleTextMessage cfg msg hist lastResp storage (.ok resp) tts hasTtsKey
        now rand host).lastResponse = some resp ∧
    (handleAudioMessage hist2 lastResp2 download transcribe ai2).lastResponse
        = lastResp2 := by
  constructor
  · simp only [handleTextMessage, if_neg h1, if_neg h2, if_neg h3, getAIResponse]
  · unfold handleAudioMessage
    cases download with
    | error e => rfl
    | ok buf =>
        cases transcribe with
        | error e => rfl
        | ok t =>
            cases ai2 with
            | error e => simp only [getAIResponse]
            | ok f => simp only [getAIResponse]

/-- C4 witness: the theorem at a concrete text turn (reply `"fresh"`)
and a concrete failing voice turn against `lastResponse = some "old"`. -/
theorem c4_last_response_overwritten_on_text_turns_only_witness :
    (toLowerStr "hi" ≠ "/reset") ∧ (toLowerStr "hi" ≠ "/help") ∧
    (toLowerStr "hi" ≠ "/listen") ∧
    ((handleTextMessage cfg0 "hi" [] (some "old") [] (.ok "fresh") (.error "e")
        false 0 "r" "h").lastResponse = some "fresh" ∧
     (handleAudioMessage [] (some "old") (.error "dl") (.error "tr")
        (.error "ai")).lastResponse = some "old") :=
  ⟨by decide, by decide, by decide,
   c4_last_response_overwritten_on_text_turns_only cfg0 "hi" [] (some "old") []
     "fresh" (.error "e") false 0 "r" "h" [] (some "old") (.error "dl")
     (.error "tr") (.error "ai") (by decide) (by decide) (by decide)⟩

/-- C2 counterexample: with fresh state and 11 consecutive
successful free-form turns the session holds 21 entries, not the
`min(2N, 20) = 20` the claim states — `getAIResponse` truncates to 20
after pushing the user turn and then appends the assistant turn on
top. -/
theorem c2_session_holds_21_entries_after_11_turns :
    (runTurns (fun _ => "u") (fun _ => "a") 11).length = 21 ∧
    min (2 * 11) 20 = 20 ∧
    (runTurns (fun _ => "u") (fun _ => "a") 11).length ≠ min (2 * 11) 20 := by
  exact ⟨by decide, by decide, by decide⟩

/-- C2 amended: after `N` consecutive successful free-form turns from
a fresh session the session holds exactly `min(2N, 21)` entries (for
`N ≤ 10` that is `2N`; from the 11th turn on the cap of 20 is
exceeded by the assistant turn appended after truncation), and the
entries are a suffix of the full untruncated transcript: order is
preserved, the front is the oldest surviving entry, and the oldest
entries are the ones evicted. -/
theorem c2_session_length_is_min_2N_21_fifo
    (userMsgs assistantMsgs : Nat → String) (N : Nat) :
    (runTurns userMsgs assistantMsgs N).length = min (2 * N) 21 ∧
    runTurns userMsgs assistantMsgs N <:+ fullTranscript userMsgs assistantMsgs N := by
  induction N with
  | zero => exact ⟨rfl, List.suffix_rfl⟩
  | succ n ih =>
      obtain ⟨ihlen, ihsuf⟩ := ih
      constructor
      · simp only [runTurns, getAIResponse, List.length_append,
          pushUserAndTruncate_length, ihlen, List.length_cons, List.length_nil]
        split <;> omega
      · simp only [runTurns, fullTranscript, getAIResponse]
        have h1 : pushUserAndTruncate (runTurns userMsgs assistantMsgs n)
            (userMsgs n) ++ [⟨"assistant", assistantMsgs n⟩] <:+
            (runTurns userMsgs assistantMsgs n ++ [⟨"user", userMsgs n⟩]) ++
              [⟨"assistant", assistantMsgs n⟩] :=
          suffix_append_same _ (pushUserAndTruncate_suffix _ _)
        have h2 : (runTurns userMsgs assistantMsgs n ++ [⟨"user", userMsgs n⟩]) ++
            [⟨"assistant", assistantMsgs n⟩] <:+
            (fullTranscript userMsgs assistantMsgs n ++ [⟨"user", userMsgs n⟩]) ++
              [⟨"assistant", assistantMsgs n⟩] :=
          suffix_append_same _ (suffix_append_same _ ihsuf)
        have h3 := h1.trans h2
        simpa [List.append_assoc] using h3

/-- C3 counterexample: a blob stored at time 0 is still served by
`GET /audio/:audioId` at any later moment when no further store call
has run — the fetch route reads no clock and checks no expiry, so 6
minutes after the store (contrary to the claimed 404) the request
still returns the bytes. -/
theorem c3_stale_blob_served_without_intervening_store :
    (storeAudio [] [1, 2, 3] 0 "abc").1 = [("audio_0_abc", ⟨[1, 2, 3], 0⟩)] ∧
    fetchAudio (storeAudio [] [1, 2, 3] 0 "abc").1 "audio_0_abc" = some [1, 2, 3] := by
  exact ⟨by decide, by decide⟩

/-- C3 amended: blob expiry is enforced only by the sweep inside
`storeAudio`: after any store call at time `now`, a blob id whose
entries were all created strictly more than 5 minutes before `now`
(and which is not the freshly stored id) fetches as 404; but a fetch
itself never checks expiry — it returns whatever the store currently
holds, no matter how old. -/
theorem c3_expiry_enforced_only_by_store_sweep
    (storage : List (String × AudioData)) (bytes : List Nat) (now : Int)
    (rand oldId p : String)
    (hstale : ∀ q ∈ storage, q.1 = oldId → q.2.createdAt < now - 5 * 60 * 1000)
    (hne : oldId ≠ makeAudioId now rand)
    (hp : stripMp3 p = oldId)
    (st2 : List (String × AudioData)) (p2 : String) (d2 : AudioData)
    (hl2 : st2.lookup (stripMp3 p2) = some d2) :
    fetchAudio (storeAudio storage bytes now rand).1 p = none ∧
    fetchAudio st2 p2 = some d2.buffer := by
  constructor
  · have hst : (storeAudio storage bytes now rand).1 =
        (mapSet storage (makeAudioId now rand) ⟨bytes, now⟩).filter
          (fun kv => decide (¬ kv.2.createdAt < now - 5 * 60 * 1000)) := rfl
    have hnone : ((storeAudio storage bytes now rand).1).lookup oldId = none := by
      rw [hst]
      apply lookup_filter_none
      intro q hq hq1
      rcases mem_mapSet _ _ _ q hq with h | ⟨hm, hk⟩
      · rw [h] at hq1
        exact absurd hq1.symm hne
      · have hc := hstale q hm hq1
        show decide (¬ q.2.createdAt < now - 5 * 60 * 1000) = false
        rw [decide_eq_false_iff_not]
        exact not_not_intro hc
    simp only [fetchAudio]
    rw [hp, hnone]
  · simp only [fetchAudio]
    rw [hl2]

/-- C3 witness: the theorem at a store holding one blob created at
time 0, swept by a store call at time 400000 (6⅔ minutes later), and
a direct fetch of an old blob with no intervening store. -/
theorem c3_expiry_enforced_only_by_store_sweep_witness :
    (∀ q ∈ [(("old" : String), (⟨[9], 0⟩ : AudioData))], q.1 = "old" →
        q.2.createdAt < (400000 : Int) - 5 * 60 * 1000) ∧
    ("old" ≠ makeAudioId 400000 "abc") ∧
    (stripMp3 "old" = "old") ∧
    ([(("old" : String), (⟨[9], 0⟩ : AudioData))].lookup (stripMp3 "old")
        = some ⟨[9], 0⟩) ∧
    (fetchAudio (storeAudio [("old", ⟨[9], 0⟩)] [1] 400000 "abc").1 "old" = none ∧
     fetchAudio [("old", ⟨[9], 0⟩)] "old" = some (⟨[9], 0⟩ : AudioData).buffer) :=
  ⟨by decide, by decide, by decide, by decide,
   c3_expiry_enforced_only_by_store_sweep [("old", ⟨[9], 0⟩)] [1] 400000 "abc"
     "old" "old" (by decide) (by decide) (by decide) [("old", ⟨[9], 0⟩)] "old"
     ⟨[9], 0⟩ (by decide)⟩

/-- C10: the sweep run by `storeAudio` deletes exactly the entries
created strictly more than 5 minutes in the past, so the freshly
stored blob (creation time `now`) always survives it, and an
immediate fetch of the returned identifier — bare or with a trailing
`.mp3` — returns the stored bytes. -/
theorem c10_fresh_blob_survives_sweep_and_fetches
    (storage : List (String × AudioData)) (bytes : List Nat) (now : Int)
    (rand : String) (hdot : '.' ∉ (makeAudioId now rand).data) :
    (∀ q ∈ (storeAudio storage bytes now rand).1,
        now - 5 * 60 * 1000 ≤ q.2.createdAt) ∧
    fetchAudio (storeAudio storage bytes now rand).1
        (storeAudio storage bytes now rand).2 = some bytes ∧
    fetchAudio (storeAudio storage bytes now rand).1
        ((storeAudio storage bytes now rand).2 ++ ".mp3") = some bytes := by
  have hst : (storeAudio storage bytes now rand).1 =
      (mapSet storage (makeAudioId now rand) ⟨bytes, now⟩).filter
        (fun kv => decide (¬ kv.2.createdAt < now - 5 * 60 * 1000)) := rfl
  have hid : (storeAudio storage bytes now rand).2 = makeAudioId now rand := rfl
  have hlook : ((storeAudio storage bytes now rand).1).lookup (makeAudioId now rand)
      = some ⟨bytes, now⟩ := by
    rw [hst]
    apply lookup_filter_some
    · exact lookup_mapSet storage (makeAudioId now rand) ⟨bytes, now⟩
    · intro q hq hq1
      rcases mem_mapSet _ _ _ q hq with h | ⟨_, hk⟩
      · rw [h]
      · exact absurd hq1 hk
    · show decide (¬ (now : Int) < now - 5 * 60 * 1000) = true
      rw [decide_eq_true_eq]
      omega
  refine ⟨?_, ?_, ?_⟩
  · intro q hq
    rw [hst] at hq
    have h2 := (List.mem_filter.mp hq).2
    rw [decide_eq_true_eq] at h2
    omega
  · simp only [fetchAudio, hid]
    rw [stripMp3_no_dot _ hdot, hlook]
  · simp only [fetchAudio, hid]
    rw [stripMp3_append_mp3, hlook]

/-- C10 witness: the theorem at an empty store, bytes `[1, 2]`,
store time 0 and random tag `"abc"`. -/
theorem c10_fresh_blob_survives_sweep_and_fetches_witness :
    ('.' ∉ (makeAudioId 0 "abc").data) ∧
    ((∀ q ∈ (storeAudio [] [1, 2] 0 "abc").1,
        (0 : Int) - 5 * 60 * 1000 ≤ q.2.createdAt) ∧
     fetchAudio (storeAudio [] [1, 2] 0 "abc").1
        (storeAudio [] [1, 2] 0 "abc").2 = some [1, 2] ∧
     fetchAudio (storeAudio [] [1, 2] 0 "abc").1
        ((storeAudio [] [1, 2] 0 "abc").2 ++ ".mp3") = some [1, 2]) :=
  ⟨by decide, c10_fresh_blob_survives_sweep_and_fetches [] [1, 2] 0 "abc" (by decide)⟩

/-- C5: when the assistant reply exceeds 4500 characters, the
webhook handler replies with the ordered sequence of 4500-character
chunks (`substring(i, i + 4500)` for `i = 0, 4500, …`): every chunk
is at most 4500 characters, their in-order concatenation is exactly
the original text, and a 9001-character reply yields exactly 3
chunks. -/
theorem c5_long_reply_split_into_exact_chunks
    (cfg : BotConfig) (msg : String) (hist : List Turn) (lastResp : Option String)
    (storage : List (String × AudioData)) (resp : String)
    (tts : Except String (List Nat)) (hasTtsKey : Bool) (now : Int)
    (rand host : String)
    (h1 : toLowerStr msg ≠ "/reset") (h2 : toLowerStr msg ≠ "/help")
    (h3 : toLowerStr msg ≠ "/listen") (hlong : 4500 < resp.length) :
    (handleTextMessage cfg msg hist lastResp storage (.ok resp) tts hasTtsKey
        now rand host).replies =
      (chunkChars resp.data).map (fun c => LineMessage.text (String.mk c)) ∧
    (∀ c ∈ chunkChars resp.data, c.length ≤ 4500) ∧
    (chunkChars resp.data).flatten = resp.data ∧
    (resp.length = 9001 → (chunkChars resp.data).length = 3) := by
  refine ⟨?_, fun c hc => chunkChars_mem_length _ c hc, chunkChars_flatten _, ?_⟩
  · simp only [handleTextMessage, if_neg h1, if_neg h2, if_neg h3, getAIResponse]
    split
    · rfl
    · rename_i hshort
      exact absurd hlong (by simpa using hshort)
  · intro hlen
    rw [chunkChars_count]
    have hd : resp.data.length = 9001 := hlen
    rw [hd]

/-- C5 witness: the theorem at a 9001-character reply made of `'a'`s
to the free-form message `"hi"`. -/
theorem c5_long_reply_split_into_exact_chunks_witness :
    (toLowerStr "hi" ≠ "/reset") ∧ (toLowerStr "hi" ≠ "/help") ∧
    (toLowerStr "hi" ≠ "/listen") ∧
    (4500 < (String.mk (List.replicate 9001 'a')).length) ∧
    ((handleTextMessage cfg0 "hi" [] none [] (.ok (String.mk (List.replicate 9001 'a')))
        (.error "e") false 0 "r" "h").replies =
      (chunkChars (String.mk (List.replicate 9001 'a')).data).map
        (fun c => LineMessage.text (String.mk c)) ∧
     (∀ c ∈ chunkChars (String.mk (List.replicate 9001 'a')).data, c.length ≤ 4500) ∧
     (chunkChars (String.mk (List.replicate 9001 'a')).data).flatten =
       (String.mk (List.replicate 9001 'a')).data ∧
     ((String.mk (List.replicate 9001 'a')).length = 9001 →
       (chunkChars (String.mk (List.replicate 9001 'a')).data).length = 3)) :=
  ⟨by decide, by decide, by decide,
   by
     show (4500 : Nat) < (List.replicate 9001 'a').length
     rw [List.length_replicate]
     norm_num,
   c5_long_reply_split_into_exact_chunks cfg0 "hi" [] none []
     (String.mk (List.replicate 9001 'a')) (.error "e") false 0 "r" "h"
     (by decide) (by decide) (by decide)
     (by
       show (4500 : Nat) < (List.replicate 9001 'a').length
       rw [List.length_replicate]
       norm_num)⟩

/-- C6: tenant-identifier derivation lowercases the display name and
replaces every character outside `[a-z0-9]` with an underscore,
character by character (`"John Doe!!"` derives to `"john_doe__"`),
and registration detects duplicates by recomputing exactly this
function: with all fields present, registration reports a duplicate
precisely when the derived identifier is already a stored key. -/
theorem c6_bot_id_derivation_and_duplicate_check
    (name sk tok sec pr host : String) (bots : List (String × BotConfig))
    (hname : name ≠ "") (hsk : sk ≠ "") (htok : tok ≠ "") (hsec : sec ≠ "")
    (hpr : pr ≠ "") :
    deriveBotId "John Doe!!" = "john_doe__" ∧
    (deriveBotId name).data = name.data.map botIdChar ∧
    ((registerBot bots name sk tok sec pr host).1 =
        RegResult.duplicate (deriveBotId name) ↔
      deriveBotId name ∈ bots.map Prod.fst) := by
  refine ⟨by decide, rfl, ?_⟩
  simp only [registerBot]
  rw [if_neg (by simp [hname, hsk, htok, hsec, hpr])]
  by_cases hmem : deriveBotId name ∈ bots.map Prod.fst
  · rw [if_pos hmem]
    simp [hmem]
  · rw [if_neg hmem]
    simp [hmem]

/-- C6 witness: the theorem at `"John Doe!!"` against a registry
already holding the key `"john_doe__"`. -/
theorem c6_bot_id_derivation_and_duplicate_check_witness :
    ("John Doe!!" ≠ "") ∧ ("Reading" ≠ "") ∧ ("tok" ≠ "") ∧ ("sec" ≠ "") ∧
    ("pr" ≠ "") ∧
    (deriveBotId "John Doe!!" = "john_doe__" ∧
     (deriveBotId "John Doe!!").data = "John Doe!!".data.map botIdChar ∧
     ((registerBot [("john_doe__", cfg0)] "John Doe!!" "Reading" "tok" "sec" "pr"
          "h").1 = RegResult.duplicate (deriveBotId "John Doe!!") ↔
       deriveBotId "John Doe!!" ∈ [("john_doe__", cfg0)].map Prod.fst)) :=
  ⟨by decide, by decide, by decide, by decide, by decide,
   c6_bot_id_derivation_and_duplicate_check "John Doe!!" "Reading" "tok" "sec"
     "pr" "h" [("john_doe__", cfg0)] (by decide) (by decide) (by decide)
     (by decide) (by decide)⟩

/-- C8: when the completion call fails on a free-form turn, the
session keeps only the newly pushed user turn (any assistant entry
surviving the turn was already there before), the raw upstream error
never reaches the user, and the reply is the fixed retry-later text;
when it succeeds, the assistant turn is appended and returned. -/
theorem c8_upstream_failure_no_assistant_turn_fixed_reply
    (cfg : BotConfig) (msg : String) (hist : List Turn) (lastResp : Option String)
    (storage : List (String × AudioData)) (tts : Except String (List Nat))
    (hasTtsKey : Bool) (now : Int) (rand host : String) (e resp : String)
    (h1 : toLowerStr msg ≠ "/reset") (h2 : toLowerStr msg ≠ "/help")
    (h3 : toLowerStr msg ≠ "/listen") :
    handleTextMessage cfg msg hist lastResp storage (.error e) tts hasTtsKey
        now rand host =
      { history := pushUserAndTruncate hist msg, lastResponse := lastResp,
        replies := [.text aiTroubleReply], pushes := [], audioStorage := storage,
        aiCalled := true, logged := none } ∧
    (∀ t ∈ pushUserAndTruncate hist msg, t.role = "assistant" → t ∈ hist) ∧
    getAIResponse hist msg (.ok resp) =
      (pushUserAndTruncate hist msg ++ [⟨"assistant", resp⟩], .ok resp) := by
  refine ⟨?_, ?_, rfl⟩
  · simp only [handleTextMessage, if_neg h1, if_neg h2, if_neg h3, getAIResponse]
  · intro t ht hrole
    rcases pushUserAndTruncate_mem hist msg t ht with h | h
    · exact h
    · rw [h] at hrole
      have h2 : ("user" : String) = "assistant" := hrole
      exact absurd h2 (by decide)

/-- C8 witness: the theorem at the failing call `error "boom"` (and
successful call `ok "fine"`) on message `"hi"` against a one-turn
session. -/
theorem c8_upstream_failure_no_assistant_turn_fixed_reply_witness :
    (toLowerStr "hi" ≠ "/reset") ∧ (toLowerStr "hi" ≠ "/help") ∧
    (toLowerStr "hi" ≠ "/listen") ∧
    (handleTextMessage cfg0 "hi" [⟨"user", "q"⟩] none [] (.error "boom")
        (.error "e") false 0 "r" "h" =
      { history := pushUserAndTruncate [⟨"user", "q"⟩] "hi", lastResponse := none,
        replies := [.text aiTroubleReply], pushes := [], audioStorage := [],
        aiCalled := true, logged := none } ∧
     (∀ t ∈ pushUserAndTruncate [⟨"user", "q"⟩] "hi",
        t.role = "assistant" → t ∈ [⟨"user", "q"⟩]) ∧
     getAIResponse [⟨"user", "q"⟩] "hi" (.ok "fine") =
       (pushUserAndTruncate [⟨"user", "q"⟩] "hi" ++ [⟨"assistant", "fine"⟩],
        .ok "fine")) :=
  ⟨by decide, by decide, by decide,
   c8_upstream_failure_no_assistant_turn_fixed_reply cfg0 "hi" [⟨"user", "q"⟩]
     none [] (.error "e") false 0 "r" "h" "boom" "fine" (by decide) (by decide)
     (by decide)⟩

set_option maxRecDepth 4000000

/-- C1 (code bug): the deployed verifier computes its HMAC over the
re-serialized parse `JSON.stringify(JSON.parse(rawBody))`, not over
the raw request bytes.  At secret `"secret123"` and the raw body
`rawBody0` (which contains a space after the colon, so its compact
re-serialization differs from it byte-for-byte), the delivery
carrying exactly the base64 HMAC-SHA256 of the untouched raw bytes —
the one signature the claim says must be accepted — is rejected with
401, while the signature of the re-serialized bytes is accepted. -/
theorem c1_webhook_rejects_signature_over_raw_bytes :
    (jsonParse rawBody0).map jsonStringify = some "\x7b\"events\":[]\x7d" ∧
    "\x7b\"events\":[]\x7d" ≠ rawBody0 ∧
    webhookAdmission (some cfg0) rawBody0
        (some (rawBodySignature "secret123" rawBody0)) = .unauthorized ∧
    webhookAdmission (some cfg0) rawBody0
        (some (rawBodySignature "secret123" "\x7b\"events\":[]\x7d")) = .okSuccess :=
  ⟨by decide, by decide, by decide, by decide⟩

end LinebotServer
